import Mathlib

/-!
Verification development for the exact Sod shock-tube Riemann solver of this
repository.  The authoritative sources are
src/workflows/shock_tube_workflow/01_simulation/scripts/shock_tube_animation_utils.py
(class SodShockTube, referred to below as the utils copy) and
src/workflows/shock_tube_workflow/02_simulation_2d/scripts/animate_2d.py
(a near-duplicate copy, referred to below as the 2d copy).

Modelling conventions:
* Python/NumPy floating-point scalars are embedded as real numbers; np.sqrt is
  Real.sqrt and the float power with real exponent is Real.rpow.
* scipy.optimize.fsolve is external library code; it is passed in as an
  explicit function parameter fsolve, and theorems that need the root property
  hypothesise that the value it returns is an exact root of the equation
  function it is given (the idealisation of a converged nonlinear solve).
* The five boolean region masks of shock_tube_solution act elementwise on the
  query array; they are modelled per element, over an arbitrary linear order,
  and the sequential masked stores into a zero-initialised array are modelled
  by applyMasks below, which applies the five conditional writes in the order
  the source performs them.
* The source raises no exception anywhere in the solver; the Except-valued
  wrappers below make that error-freeness a statable property.
-/

namespace SodRiemann

/-- The four characteristic wave speeds computed by shock_tube_solution
(lines 66-72 of the utils copy): rarefaction head and tail, contact, shock. -/
structure Waves (α : Type) where
  head_speed : α
  tail_speed : α
  contact_speed : α
  shock_speed : α

/-- Region 1 mask of shock_tube_solution (line 83 of the utils copy):
xi < head_speed. -/
def mask1 {α : Type} [LinearOrder α] (w : Waves α) (xi : α) : Bool :=
  decide (xi < w.head_speed)

/-- Region 2 mask (line 89): head_speed <= xi < tail_speed. -/
def mask2 {α : Type} [LinearOrder α] (w : Waves α) (xi : α) : Bool :=
  decide (w.head_speed ≤ xi ∧ xi < w.tail_speed)

/-- Region 3 mask (line 102): tail_speed <= xi < contact_speed. -/
def mask3 {α : Type} [LinearOrder α] (w : Waves α) (xi : α) : Bool :=
  decide (w.tail_speed ≤ xi ∧ xi < w.contact_speed)

/-- Region 4 mask (line 108): contact_speed <= xi < shock_speed. -/
def mask4 {α : Type} [LinearOrder α] (w : Waves α) (xi : α) : Bool :=
  decide (w.contact_speed ≤ xi ∧ xi < w.shock_speed)

/-- Region 5 mask (line 114): xi >= shock_speed. -/
def mask5 {α : Type} [LinearOrder α] (w : Waves α) (xi : α) : Bool :=
  decide (w.shock_speed ≤ xi)

/-- Per-element semantics of the five sequential masked stores of
shock_tube_solution (lines 78-117 of the utils copy): the arrays start
zero-initialised (np.zeros_like, modelled by the explicit init argument) and
the five regions write in source order, so for one element the write of a
later matching mask lands on top of any earlier one.  Region 2 writes a value
that depends on xi (the rarefaction fan), hence v2 is a function. -/
def applyMasks {α β : Type} [LinearOrder α] (w : Waves α) (xi : α)
    (v1 : β) (v2 : α → β) (v3 v4 v5 : β) (init : β) : β :=
  let d1 := if mask1 w xi then v1 else init
  let d2 := if mask2 w xi then v2 xi else d1
  let d3 := if mask3 w xi then v3 else d2
  let d4 := if mask4 w xi then v4 else d3
  if mask5 w xi then v5 else d4

/-- Errors named by the specification of the solver.  The source code of both
copies contains no raise statement and no assert, so no execution path of the
embedded code below ever produces one of these. -/
inductive SolverError where
  | invalidInput : SolverError
  | regionClassification : SolverError
  | convergence : SolverError

/-- The region-classification stage of shock_tube_solution viewed as a
fallible call, as the specification describes it.  The source (lines 77-117
of the utils copy) applies the five masks sequentially with no check of the
wave-speed ordering and raises nothing, so the embedding has no error
branch. -/
def classifyE {α β : Type} [LinearOrder α] (w : Waves α) (xi : α)
    (v1 : β) (v2 : α → β) (v3 v4 v5 : β) (init : β) : Except SolverError β :=
  Except.ok (applyMasks w xi v1 v2 v3 v4 v5 init)

/-- The fields of a SodShockTube instance: the adiabatic index set by the
constructor and the left/right primitive states and discontinuity position
set in it (lines 24-33 of the utils copy; other scripts may overwrite the
attributes afterwards, so the embedding allows arbitrary field values). -/
structure SodState where
  gamma : ℝ
  rho_L : ℝ
  p_L : ℝ
  u_L : ℝ
  rho_R : ℝ
  p_R : ℝ
  u_R : ℝ
  x_discontinuity : ℝ

namespace ShockTubeAnimationUtils

/-- Method sound_speed (line 35 of the utils copy): sqrt(gamma * p / rho). -/
noncomputable def sound_speed (s : SodState) (p rho : ℝ) : ℝ :=
  Real.sqrt (s.gamma * p / rho)

/-- Left wave function f_L of the inner equations function of _solve_riemann
(lines 140-146 of the utils copy): shock branch when p > p_L, rarefaction
branch otherwise.  The source writes the same two formulas out again at
lines 166-172 when recomputing f_L at the solved pressure; the text is
identical, so one definition serves both occurrences. -/
noncomputable def f_left (s : SodState) (p : ℝ) : ℝ :=
  if p > s.p_L then
    (p - s.p_L) * Real.sqrt ((2 / (s.gamma + 1) / s.rho_L) /
      (p + (s.gamma - 1) / (s.gamma + 1) * s.p_L))
  else
    (2 * sound_speed s s.p_L s.rho_L / (s.gamma - 1)) *
      ((p / s.p_L) ^ ((s.gamma - 1) / (2 * s.gamma)) - 1)

/-- Right wave function f_R of the inner equations function (lines 149-155 of
the utils copy). -/
noncomputable def f_right (s : SodState) (p : ℝ) : ℝ :=
  if p > s.p_R then
    (p - s.p_R) * Real.sqrt ((2 / (s.gamma + 1) / s.rho_R) /
      (p + (s.gamma - 1) / (s.gamma + 1) * s.p_R))
  else
    (2 * sound_speed s s.p_R s.rho_R / (s.gamma - 1)) *
      ((p / s.p_R) ^ ((s.gamma - 1) / (2 * s.gamma)) - 1)

/-- The inner function equations of _solve_riemann (lines 131-158 of the
utils copy): F(p) = f_L(p) + f_R(p) + (u_R - u_L). -/
noncomputable def equations (s : SodState) (p : ℝ) : ℝ :=
  f_left s p + f_right s p + (s.u_R - s.u_L)

/-- Star pressure (line 161 of the utils copy): the value returned by the
external root finder fsolve applied to equations with initial guess
(p_L + p_R) / 2. -/
noncomputable def p_star (s : SodState) (fsolve : (ℝ → ℝ) → ℝ → ℝ) : ℝ :=
  fsolve (equations s) ((s.p_L + s.p_R) / 2)

/-- Star velocity (lines 164-174 of the utils copy): u* = u_L - f_L(p*), with
f_L re-evaluated at p* on the branch selected by comparing p* with p_L. -/
noncomputable def u_star (s : SodState) (fsolve : (ℝ → ℝ) → ℝ → ℝ) : ℝ :=
  s.u_L - f_left s (p_star s fsolve)

/-- Star density left of the contact (lines 177-183 of the utils copy):
Rankine-Hugoniot shock formula when p* > p_L, isentropic relation
otherwise. -/
noncomputable def rho_3 (s : SodState) (fsolve : (ℝ → ℝ) → ℝ → ℝ) : ℝ :=
  if p_star s fsolve > s.p_L then
    s.rho_L * ((p_star s fsolve / s.p_L + (s.gamma - 1) / (s.gamma + 1)) /
      ((s.gamma - 1) / (s.gamma + 1) * p_star s fsolve / s.p_L + 1))
  else
    s.rho_L * (p_star s fsolve / s.p_L) ^ (1 / s.gamma)

/-- Star density right of the contact (lines 186-187 of the utils copy):
always the Rankine-Hugoniot shock formula with the right state. -/
noncomputable def rho_4 (s : SodState) (fsolve : (ℝ → ℝ) → ℝ → ℝ) : ℝ :=
  s.rho_R * ((p_star s fsolve / s.p_R + (s.gamma - 1) / (s.gamma + 1)) /
    ((s.gamma - 1) / (s.gamma + 1) * p_star s fsolve / s.p_R + 1))

/-- Method _solve_riemann of the utils copy (lines 123-189): returns the tuple
(p_star, u_star, rho_3, rho_4). -/
noncomputable def solve_riemann (s : SodState) (fsolve : (ℝ → ℝ) → ℝ → ℝ) :
    ℝ × ℝ × ℝ × ℝ :=
  (p_star s fsolve, u_star s fsolve, rho_3 s fsolve, rho_4 s fsolve)

/-- The star-state solve viewed as a fallible call, as the specification
describes it.  The source performs no input validation and raises nothing, so
the embedding has no error branch. -/
noncomputable def solve_riemannE (s : SodState) (fsolve : (ℝ → ℝ) → ℝ → ℝ) :
    Except SolverError (ℝ × ℝ × ℝ × ℝ) :=
  Except.ok (solve_riemann s fsolve)

/-- Shock speed (lines 66-68 of the utils copy). -/
noncomputable def shock_speed (s : SodState) (fsolve : (ℝ → ℝ) → ℝ → ℝ) : ℝ :=
  s.u_R + sound_speed s s.p_R s.rho_R *
    Real.sqrt ((s.gamma + 1) / (2 * s.gamma) * (p_star s fsolve / s.p_R) +
      (s.gamma - 1) / (2 * s.gamma))

/-- Rarefaction head speed (line 70 of the utils copy): u_L - c_L. -/
noncomputable def head_speed (s : SodState) : ℝ :=
  s.u_L - sound_speed s s.p_L s.rho_L

/-- Rarefaction tail speed (line 71 of the utils copy): u* - c_3 with
c_3 = sound_speed(p*, rho_3). -/
noncomputable def tail_speed (s : SodState) (fsolve : (ℝ → ℝ) → ℝ → ℝ) : ℝ :=
  u_star s fsolve - sound_speed s (p_star s fsolve) (rho_3 s fsolve)

/-- Contact speed (line 72 of the utils copy): u*. -/
noncomputable def contact_speed (s : SodState) (fsolve : (ℝ → ℝ) → ℝ → ℝ) : ℝ :=
  u_star s fsolve

/-- The wave-speed record computed by shock_tube_solution for t > 0. -/
noncomputable def waves (s : SodState) (fsolve : (ℝ → ℝ) → ℝ → ℝ) : Waves ℝ :=
  ⟨head_speed s, tail_speed s fsolve, contact_speed s fsolve, shock_speed s fsolve⟩

/-- Local sound speed inside the rarefaction fan (line 93 of the utils copy),
a function of the self-similarity variable xi. -/
noncomputable def c_fan (s : SodState) (xi : ℝ) : ℝ :=
  (2 / (s.gamma + 1)) *
    (sound_speed s s.p_L s.rho_L + (s.gamma - 1) / 2 * (s.u_L - xi))

/-- Fan density (line 95 of the utils copy). -/
noncomputable def fan_density (s : SodState) (xi : ℝ) : ℝ :=
  s.rho_L * (c_fan s xi / sound_speed s s.p_L s.rho_L) ^ (2 / (s.gamma - 1))

/-- Fan velocity (line 97 of the utils copy). -/
noncomputable def fan_velocity (s : SodState) (xi : ℝ) : ℝ :=
  (2 / (s.gamma + 1)) *
    ((s.gamma - 1) / 2 * s.u_L + sound_speed s s.p_L s.rho_L + xi)

/-- Fan pressure (line 99 of the utils copy). -/
noncomputable def fan_pressure (s : SodState) (xi : ℝ) : ℝ :=
  s.p_L * (c_fan s xi / sound_speed s s.p_L s.rho_L) ^ (2 * s.gamma / (s.gamma - 1))

/-- Method shock_tube_solution of the utils copy (lines 38-121), per query
position: for t <= 0 the discontinuous initial condition selected by
x < x_discontinuity (lines 49-53); for t > 0 the five sequential masked
region writes on xi = (x - x_discontinuity) / t, starting from
zero-initialised arrays.  The returned tuple is (density, velocity, pressure,
energy) with the ideal-gas energy p / ((gamma - 1) * rho) computed from the
finalised fields (line 120). -/
noncomputable def shock_tube_solution (s : SodState)
    (fsolve : (ℝ → ℝ) → ℝ → ℝ) (x t : ℝ) : ℝ × ℝ × ℝ × ℝ :=
  if t ≤ 0 then
    ((if x < s.x_discontinuity then s.rho_L else s.rho_R),
     (if x < s.x_discontinuity then s.u_L else s.u_R),
     (if x < s.x_discontinuity then s.p_L else s.p_R),
     (if x < s.x_discontinuity then s.p_L else s.p_R) /
       ((s.gamma - 1) * (if x < s.x_discontinuity then s.rho_L else s.rho_R)))
  else
    let xi := (x - s.x_discontinuity) / t
    let density := applyMasks (waves s fsolve) xi s.rho_L (fan_density s)
      (rho_3 s fsolve) (rho_4 s fsolve) s.rho_R 0
    let velocity := applyMasks (waves s fsolve) xi s.u_L (fan_velocity s)
      (u_star s fsolve) (u_star s fsolve) s.u_R 0
    let pressure := applyMasks (waves s fsolve) xi s.p_L (fan_pressure s)
      (p_star s fsolve) (p_star s fsolve) s.p_R 0
    (density, velocity, pressure, pressure / ((s.gamma - 1) * density))

/-- The full solution call viewed as a fallible call, as the specification
describes it.  The source raises nothing on any path. -/
noncomputable def shock_tube_solutionE (s : SodState)
    (fsolve : (ℝ → ℝ) → ℝ → ℝ) (x t : ℝ) : Except SolverError (ℝ × ℝ × ℝ × ℝ) :=
  Except.ok (shock_tube_solution s fsolve x t)

end ShockTubeAnimationUtils

namespace Animate2d

/-- Method sound_speed of the 2d copy (line 42 of animate_2d.py). -/
noncomputable def sound_speed (s : SodState) (p rho : ℝ) : ℝ :=
  Real.sqrt (s.gamma * p / rho)

/-- Left wave function of the inner equations function of the 2d copy
(lines 107-111 of animate_2d.py); textually the same formulas as the utils
copy. -/
noncomputable def f_left (s : SodState) (p : ℝ) : ℝ :=
  if p > s.p_L then
    (p - s.p_L) * Real.sqrt ((2 / (s.gamma + 1) / s.rho_L) /
      (p + (s.gamma - 1) / (s.gamma + 1) * s.p_L))
  else
    (2 * sound_speed s s.p_L s.rho_L / (s.gamma - 1)) *
      ((p / s.p_L) ^ ((s.gamma - 1) / (2 * s.gamma)) - 1)

/-- Right wave function of the inner equations function of the 2d copy
(lines 113-117 of animate_2d.py). -/
noncomputable def f_right (s : SodState) (p : ℝ) : ℝ :=
  if p > s.p_R then
    (p - s.p_R) * Real.sqrt ((2 / (s.gamma + 1) / s.rho_R) /
      (p + (s.gamma - 1) / (s.gamma + 1) * s.p_R))
  else
    (2 * sound_speed s s.p_R s.rho_R / (s.gamma - 1)) *
      ((p / s.p_R) ^ ((s.gamma - 1) / (2 * s.gamma)) - 1)

/-- The inner equations function of the 2d copy (line 119 of animate_2d.py):
the return statement associates as f_L + f_R + u_R - u_L, without the
parenthesised difference of the utils copy. -/
noncomputable def equations (s : SodState) (p : ℝ) : ℝ :=
  f_left s p + f_right s p + s.u_R - s.u_L

/-- Star pressure of the 2d copy (line 121 of animate_2d.py): fsolve seeded
at 0.5 * (p_L + p_R). -/
noncomputable def p_star (s : SodState) (fsolve : (ℝ → ℝ) → ℝ → ℝ) : ℝ :=
  fsolve (equations s) (0.5 * (s.p_L + s.p_R))

/-- Star velocity of the 2d copy (line 126 of animate_2d.py): always the
rarefaction formula, with no branch on p* versus p_L. -/
noncomputable def u_star (s : SodState) (fsolve : (ℝ → ℝ) → ℝ → ℝ) : ℝ :=
  s.u_L - (2 * sound_speed s s.p_L s.rho_L / (s.gamma - 1)) *
    ((p_star s fsolve / s.p_L) ^ ((s.gamma - 1) / (2 * s.gamma)) - 1)

/-- Star density left of the contact in the 2d copy (line 128 of
animate_2d.py): always the isentropic relation, with no branch. -/
noncomputable def rho_3 (s : SodState) (fsolve : (ℝ → ℝ) → ℝ → ℝ) : ℝ :=
  s.rho_L * (p_star s fsolve / s.p_L) ^ (1 / s.gamma)

/-- Star density right of the contact in the 2d copy (lines 129-130 of
animate_2d.py): the shock formula, with the ratio p*/p_R parenthesised. -/
noncomputable def rho_4 (s : SodState) (fsolve : (ℝ → ℝ) → ℝ → ℝ) : ℝ :=
  s.rho_R * ((p_star s fsolve / s.p_R + (s.gamma - 1) / (s.gamma + 1)) /
    ((s.gamma - 1) / (s.gamma + 1) * (p_star s fsolve / s.p_R) + 1))

/-- Method _solve_riemann of the 2d copy (lines 101-132 of animate_2d.py). -/
noncomputable def solve_riemann (s : SodState) (fsolve : (ℝ → ℝ) → ℝ → ℝ) :
    ℝ × ℝ × ℝ × ℝ :=
  (p_star s fsolve, u_star s fsolve, rho_3 s fsolve, rho_4 s fsolve)

end Animate2d

/-- A constant stub standing for the external root finder: it ignores both the
equation function and the seed and returns c.  Used to instantiate theorems at
concrete inputs; when c happens to be an exact root of the equation function
it also satisfies the idealised root property. -/
noncomputable def fsolve_const (c : ℝ) : (ℝ → ℝ) → ℝ → ℝ :=
  fun _ _ => c

/-- The standard Sod initial condition hardcoded by the constructors
(lines 24-33 of the utils copy): gamma = 1.4, left state (1, 1, 0), right
state (0.125, 0.1, 0), discontinuity at 0.5. -/
noncomputable def sodDefault : SodState :=
  ⟨7/5, 1, 1, 0, 1/8, 1/10, 0, 1/2⟩

/-- A state with identical left and right gas states, for which the star
pressure 1 is an exact root of the Riemann equation. -/
noncomputable def sodEqual : SodState :=
  ⟨7/5, 1, 1, 0, 1, 1, 0, 1/2⟩

/-- An invalid state: negative left density, which the specification says must
be rejected with InvalidInputError. -/
noncomputable def sodNegativeDensity : SodState :=
  ⟨7/5, -1, 1, 0, 1/8, 1/10, 0, 1/2⟩

/-- A converging-flow state (equal gas states pushed towards each other at
speed sqrt(5/13) each) whose Riemann equation has the exact root p* = 2,
which lies above p_L = 1, so the left wave is a shock. -/
noncomputable def sodConverging : SodState :=
  ⟨7/5, 1, 1, Real.sqrt (5/13), 1, 1, -Real.sqrt (5/13), 1/2⟩

/-- Whatever the four wave speeds are, ordered or not, every element satisfies
at least one of the five masks. -/
theorem masks_cover {α : Type} [LinearOrder α] (w : Waves α) (xi : α) :
    mask1 w xi = true ∨ mask2 w xi = true ∨ mask3 w xi = true ∨
      mask4 w xi = true ∨ mask5 w xi = true := by
  simp only [mask1, mask2, mask3, mask4, mask5, decide_eq_true_eq]
  rcases le_or_lt w.shock_speed xi with h5 | h5
  · exact Or.inr (Or.inr (Or.inr (Or.inr h5)))
  · rcases le_or_lt w.contact_speed xi with h4 | h4
    · exact Or.inr (Or.inr (Or.inr (Or.inl ⟨h4, h5⟩)))
    · rcases le_or_lt w.tail_speed xi with h3 | h3
      · exact Or.inr (Or.inr (Or.inl ⟨h3, h4⟩))
      · rcases le_or_lt w.head_speed xi with h2 | h2
        · exact Or.inr (Or.inl ⟨h2, h3⟩)
        · exact Or.inl h2

/-- Claim C2.  Given the wave-speed ordering head <= tail <= contact <= shock,
every element xi satisfies exactly one of the five region masks: the regions
are lower-closed and upper-open, so there is no gap and no double coverage,
including at xi exactly equal to a wave speed. -/
theorem region_partition {α : Type} [LinearOrder α] (w : Waves α) (xi : α)
    (h1 : w.head_speed ≤ w.tail_speed) (h2 : w.tail_speed ≤ w.contact_speed)
    (h3 : w.contact_speed ≤ w.shock_speed) :
    (mask1 w xi).toNat + (mask2 w xi).toNat + (mask3 w xi).toNat +
      (mask4 w xi).toNat + (mask5 w xi).toNat = 1 := by
  simp only [mask1, mask2, mask3, mask4, mask5]
  rcases lt_or_le xi w.head_speed with hA | hA
  · have nb : ¬ w.head_speed ≤ xi := not_le.mpr hA
    have nc : ¬ w.tail_speed ≤ xi := not_le.mpr (lt_of_lt_of_le hA h1)
    have nd : ¬ w.contact_speed ≤ xi := not_le.mpr (lt_of_lt_of_le hA (h1.trans h2))
    have ne5 : ¬ w.shock_speed ≤ xi :=
      not_le.mpr (lt_of_lt_of_le hA ((h1.trans h2).trans h3))
    simp [hA, nb, nc, nd, ne5]
  · rcases lt_or_le xi w.tail_speed with hB | hB
    · have na : ¬ xi < w.head_speed := not_lt.mpr hA
      have nc : ¬ w.tail_speed ≤ xi := not_le.mpr hB
      have nd : ¬ w.contact_speed ≤ xi := not_le.mpr (lt_of_lt_of_le hB h2)
      have ne5 : ¬ w.shock_speed ≤ xi :=
        not_le.mpr (lt_of_lt_of_le hB (h2.trans h3))
      simp [na, hA, hB, nc, nd, ne5]
    · rcases lt_or_le xi w.contact_speed with hC | hC
      · have na : ¬ xi < w.head_speed := not_lt.mpr (le_trans h1 hB)
        have nb : ¬ xi < w.tail_speed := not_lt.mpr hB
        have nd : ¬ w.contact_speed ≤ xi := not_le.mpr hC
        have ne5 : ¬ w.shock_speed ≤ xi := not_le.mpr (lt_of_lt_of_le hC h3)
        simp [na, nb, hB, hC, nd, ne5]
      · rcases lt_or_le xi w.shock_speed with hD | hD
        · have na : ¬ xi < w.head_speed := not_lt.mpr ((h1.trans h2).trans hC)
          have nb : ¬ xi < w.tail_speed := not_lt.mpr (h2.trans hC)
          have nc : ¬ xi < w.contact_speed := not_lt.mpr hC
          have ne5 : ¬ w.shock_speed ≤ xi := not_le.mpr hD
          simp [na, nb, nc, hC, hD, ne5]
        · have na : ¬ xi < w.head_speed :=
            not_lt.mpr (((h1.trans h2).trans h3).trans hD)
          have nb : ¬ xi < w.tail_speed := not_lt.mpr ((h2.trans h3).trans hD)
          have nc : ¬ xi < w.contact_speed := not_lt.mpr (h3.trans hD)
          have nd : ¬ xi < w.shock_speed := not_lt.mpr hD
          simp [na, nb, nc, nd, hD]

/-- A concrete instantiation of the region partition theorem: with the
ordered speeds (0, 1, 2, 3) the element 1 lies in exactly one region. -/
theorem region_partition_witness :
    ((0:ℚ) ≤ 1 ∧ (1:ℚ) ≤ 2 ∧ (2:ℚ) ≤ 3) ∧
    (mask1 (Waves.mk (0:ℚ) 1 2 3) 1).toNat + (mask2 (Waves.mk (0:ℚ) 1 2 3) 1).toNat +
      (mask3 (Waves.mk (0:ℚ) 1 2 3) 1).toNat + (mask4 (Waves.mk (0:ℚ) 1 2 3) 1).toNat +
      (mask5 (Waves.mk (0:ℚ) 1 2 3) 1).toNat = 1 :=
  ⟨⟨by norm_num, by norm_num, by norm_num⟩,
    region_partition (Waves.mk (0:ℚ) 1 2 3) 1 (by norm_num) (by norm_num) (by norm_num)⟩

/-- Claim C10.  For arbitrary wave speeds, ordered or not, the five masks
cover every element, and the sequential masked stores resolve overlaps by
letting the later mask overwrite the earlier one: the final value is that of
the last matching region and is independent of the zero initialisation.  In
particular no element retains its initial zero. -/
theorem masked_writes_cover_and_overwrite {α β : Type} [LinearOrder α]
    (w : Waves α) (xi : α) (v1 : β) (v2 : α → β) (v3 v4 v5 : β) (init : β) :
    (mask1 w xi = true ∨ mask2 w xi = true ∨ mask3 w xi = true ∨
      mask4 w xi = true ∨ mask5 w xi = true) ∧
    applyMasks w xi v1 v2 v3 v4 v5 init =
      (if mask5 w xi then v5 else if mask4 w xi then v4 else
        if mask3 w xi then v3 else if mask2 w xi then v2 xi else v1) := by
  refine ⟨masks_cover w xi, ?_⟩
  by_cases b5 : mask5 w xi = true
  · simp [applyMasks, b5]
  · by_cases b4 : mask4 w xi = true
    · simp [applyMasks, b5, b4]
    · by_cases b3 : mask3 w xi = true
      · simp [applyMasks, b5, b4, b3]
      · by_cases b2 : mask2 w xi = true
        · simp [applyMasks, b5, b4, b3, b2]
        · have b1 : mask1 w xi = true := by
            rcases masks_cover w xi with h | h | h | h | h
            · exact h
            · exact absurd h b2
            · exact absurd h b3
            · exact absurd h b4
            · exact absurd h b5
          simp [applyMasks, b5, b4, b3, b2, b1]

namespace ShockTubeAnimationUtils

/-- Claim C1.  For valid inputs, and under the idealisation that the external
root finder returns an exact root of the function it is handed, the star
solve returns p* that is a root of F(p) = f_L(p) + f_R(p) + (u_R - u_L) with
the shock/rarefaction branch selection of the claim, p* is the root finder
applied to F seeded at the arithmetic mean (p_L + p_R) / 2, and the star
velocity is u* = u_L - f_L(p*) with f_L re-evaluated at p* on the branch
selected by comparing p* with p_L. -/
theorem solve_riemann_star_state (s : SodState) (fsolve : (ℝ → ℝ) → ℝ → ℝ)
    (hg : 1 < s.gamma) (hrL : 0 < s.rho_L) (hpL : 0 < s.p_L)
    (hrR : 0 < s.rho_R) (hpR : 0 < s.p_R)
    (hroot : equations s (fsolve (equations s) ((s.p_L + s.p_R) / 2)) = 0) :
    (solve_riemann s fsolve).1 = fsolve (equations s) ((s.p_L + s.p_R) / 2) ∧
    equations s (solve_riemann s fsolve).1 = 0 ∧
    (∀ p : ℝ, equations s p =
      (if p > s.p_L then
        (p - s.p_L) * Real.sqrt ((2 / ((s.gamma + 1) * s.rho_L)) /
          (p + (s.gamma - 1) / (s.gamma + 1) * s.p_L))
      else
        (2 * Real.sqrt (s.gamma * s.p_L / s.rho_L) / (s.gamma - 1)) *
          ((p / s.p_L) ^ ((s.gamma - 1) / (2 * s.gamma)) - 1)) +
      (if p > s.p_R then
        (p - s.p_R) * Real.sqrt ((2 / ((s.gamma + 1) * s.rho_R)) /
          (p + (s.gamma - 1) / (s.gamma + 1) * s.p_R))
      else
        (2 * Real.sqrt (s.gamma * s.p_R / s.rho_R) / (s.gamma - 1)) *
          ((p / s.p_R) ^ ((s.gamma - 1) / (2 * s.gamma)) - 1)) +
      (s.u_R - s.u_L)) ∧
    (solve_riemann s fsolve).2.1 = s.u_L - f_left s (solve_riemann s fsolve).1 := by
  refine ⟨rfl, hroot, ?_, rfl⟩
  intro p
  simp only [equations, f_left, f_right, sound_speed]
  rw [div_div 2 (s.gamma + 1) s.rho_L, div_div 2 (s.gamma + 1) s.rho_R]

/-- A concrete instantiation of the star-state theorem at the state with
identical left and right gas states, where the constant stub returning 1 is
an exact root finder: all hypotheses hold and the returned pressure is a root
of the Riemann equation. -/
theorem solve_riemann_star_state_witness :
    (1 < sodEqual.gamma ∧ 0 < sodEqual.rho_L ∧ 0 < sodEqual.p_L ∧
      0 < sodEqual.rho_R ∧ 0 < sodEqual.p_R ∧
      equations sodEqual
        (fsolve_const 1 (equations sodEqual) ((sodEqual.p_L + sodEqual.p_R) / 2)) = 0) ∧
    equations sodEqual (solve_riemann sodEqual (fsolve_const 1)).1 = 0 := by
  have h1 : (1:ℝ) < sodEqual.gamma := by norm_num [sodEqual]
  have h2 : (0:ℝ) < sodEqual.rho_L := by norm_num [sodEqual]
  have h3 : (0:ℝ) < sodEqual.p_L := by norm_num [sodEqual]
  have h4 : (0:ℝ) < sodEqual.rho_R := by norm_num [sodEqual]
  have h5 : (0:ℝ) < sodEqual.p_R := by norm_num [sodEqual]
  have hroot : equations sodEqual
      (fsolve_const 1 (equations sodEqual) ((sodEqual.p_L + sodEqual.p_R) / 2)) = 0 := by
    show equations sodEqual 1 = 0
    norm_num [equations, f_left, f_right, sound_speed, sodEqual, Real.one_rpow]
  exact ⟨⟨h1, h2, h3, h4, h5, hroot⟩,
    (solve_riemann_star_state sodEqual (fsolve_const 1) h1 h2 h3 h4 h5 hroot).2.1⟩

/-- Claim C3.  The star density left of the contact equals the shock
Rankine-Hugoniot formula when p* > p_L and the isentropic formula otherwise,
while the star density right of the contact always uses the shock formula
with the right state (formulas as the specification writes them, with the
pressure ratio grouped). -/
theorem star_densities (s : SodState) (fsolve : (ℝ → ℝ) → ℝ → ℝ) :
    ((solve_riemann s fsolve).2.2.1 =
      if (solve_riemann s fsolve).1 > s.p_L then
        s.rho_L * (((solve_riemann s fsolve).1 / s.p_L + (s.gamma - 1) / (s.gamma + 1)) /
          ((s.gamma - 1) / (s.gamma + 1) * ((solve_riemann s fsolve).1 / s.p_L) + 1))
      else s.rho_L * ((solve_riemann s fsolve).1 / s.p_L) ^ (1 / s.gamma)) ∧
    ((solve_riemann s fsolve).2.2.2 =
      s.rho_R * (((solve_riemann s fsolve).1 / s.p_R + (s.gamma - 1) / (s.gamma + 1)) /
        ((s.gamma - 1) / (s.gamma + 1) * ((solve_riemann s fsolve).1 / s.p_R) + 1))) := by
  have hr3 : (solve_riemann s fsolve).2.2.1 = rho_3 s fsolve := rfl
  have hr4 : (solve_riemann s fsolve).2.2.2 = rho_4 s fsolve := rfl
  have hp : (solve_riemann s fsolve).1 = p_star s fsolve := rfl
  rw [hr3, hr4, hp]
  constructor
  · rw [rho_3]
    rcases lt_or_le s.p_L (p_star s fsolve) with h | h
    · rw [if_pos h, if_pos h]
      ring
    · rw [if_neg (not_lt.mpr h), if_neg (not_lt.mpr h)]
  · rw [rho_4]
    ring

/-- Claim C5.  For t <= 0 the solution call returns the discontinuous initial
condition exactly: left state where x < x_discontinuity, right state
otherwise; and it does not perform the star-state solve, in the sense that
the output does not depend on the root finder at all. -/
theorem evaluate_initial_condition (s : SodState)
    (fsolve fsolve₂ : (ℝ → ℝ) → ℝ → ℝ) (x t : ℝ) (ht : t ≤ 0) :
    (shock_tube_solution s fsolve x t).1 =
      (if x < s.x_discontinuity then s.rho_L else s.rho_R) ∧
    (shock_tube_solution s fsolve x t).2.1 =
      (if x < s.x_discontinuity then s.u_L else s.u_R) ∧
    (shock_tube_solution s fsolve x t).2.2.1 =
      (if x < s.x_discontinuity then s.p_L else s.p_R) ∧
    shock_tube_solution s fsolve x t = shock_tube_solution s fsolve₂ x t := by
  have h : ∀ g : (ℝ → ℝ) → ℝ → ℝ, shock_tube_solution s g x t =
      ((if x < s.x_discontinuity then s.rho_L else s.rho_R),
       (if x < s.x_discontinuity then s.u_L else s.u_R),
       (if x < s.x_discontinuity then s.p_L else s.p_R),
       (if x < s.x_discontinuity then s.p_L else s.p_R) /
         ((s.gamma - 1) * (if x < s.x_discontinuity then s.rho_L else s.rho_R))) := by
    intro g
    rw [shock_tube_solution, if_pos ht]
  refine ⟨?_, ?_, ?_, ?_⟩
  · rw [h fsolve]
  · rw [h fsolve]
  · rw [h fsolve]
  · rw [h fsolve, h fsolve₂]

/-- A concrete instantiation of the initial-condition theorem at t = 0 and
x = 0 on the default Sod state, with two different root-finder stubs. -/
theorem evaluate_initial_condition_witness :
    ((0:ℝ) ≤ 0) ∧
    (shock_tube_solution sodDefault (fsolve_const 1) 0 0).1 =
      (if (0:ℝ) < sodDefault.x_discontinuity then sodDefault.rho_L else sodDefault.rho_R) :=
  ⟨le_refl 0,
    (evaluate_initial_condition sodDefault (fsolve_const 1) (fsolve_const 2) 0 0
      (le_refl 0)).1⟩

/-- Claim C7 counterexample: the left density of sodNegativeDensity is
negative, yet the star solve does not fail with InvalidInputError; the source
performs no input validation whatsoever, so the call returns a value. -/
theorem no_input_validation_cex :
    sodNegativeDensity.rho_L < 0 ∧
    solve_riemannE sodNegativeDensity (fsolve_const 1) ≠
      Except.error SolverError.invalidInput := by
  constructor
  · norm_num [sodNegativeDensity]
  · intro h
    exact Except.noConfusion h

/-- Claim C7 amended.  The solver performs no input validation at all: for
every state, including states with non-positive densities or pressures or
gamma <= 1, and for every root finder, the star solve returns a value and
never an error. -/
theorem solve_riemann_never_fails (s : SodState) (fsolve : (ℝ → ℝ) → ℝ → ℝ)
    (e : SolverError) : solve_riemannE s fsolve ≠ Except.error e := by
  intro h
  exact Except.noConfusion h

end ShockTubeAnimationUtils

/-- Claim C8 counterexample: with wave speeds (1, 0, 0, 0), which violate the
ordering head <= tail, the region-classification call does not fail with
RegionClassificationError: it silently returns the value written by the last
matching mask. -/
theorem no_ordering_assertion_cex :
    ¬ ((Waves.mk (1:ℚ) 0 0 0).head_speed ≤ (Waves.mk (1:ℚ) 0 0 0).tail_speed) ∧
    classifyE (Waves.mk (1:ℚ) 0 0 0) 0 10 (fun _ => 20) 30 40 50 0 =
      Except.ok 50 := by
  constructor
  · show ¬ ((1:ℚ) ≤ 0)
    norm_num
  · rfl

/-- Claim C8 amended.  The wave-speed ordering is not asserted: the full
solution call never fails for any state, root finder, position or time;
wave-speed orderings that violate the invariant are resolved silently by the
sequential mask overwrites instead of raising RegionClassificationError. -/
theorem shock_tube_solution_never_fails (s : SodState)
    (fsolve : (ℝ → ℝ) → ℝ → ℝ) (x t : ℝ) (e : SolverError) :
    ShockTubeAnimationUtils.shock_tube_solutionE s fsolve x t ≠ Except.error e := by
  intro h
  exact Except.noConfusion h

namespace ShockTubeAnimationUtils

/-- Claim C4.  The rarefaction-fan formulas are continuous across the fan
boundaries: evaluated at xi = head_speed = u_L - c_L they give exactly the
left state, and evaluated at xi = tail_speed = u* - c_3 they give exactly the
star-left state (rho_3, u*, p*).  The tail statement holds on the rarefaction
branch p* <= p_L, which is the configuration in which the fan exists and in
which u_star and rho_3 take their rarefaction forms. -/
theorem fan_boundary_continuity (s : SodState) (fsolve : (ℝ → ℝ) → ℝ → ℝ)
    (hg : 1 < s.gamma) (hrL : 0 < s.rho_L) (hpL : 0 < s.p_L)
    (hps : 0 < p_star s fsolve) (hple : p_star s fsolve ≤ s.p_L) :
    (fan_density s (head_speed s) = s.rho_L ∧
     fan_velocity s (head_speed s) = s.u_L ∧
     fan_pressure s (head_speed s) = s.p_L) ∧
    (fan_density s (tail_speed s fsolve) = rho_3 s fsolve ∧
     fan_velocity s (tail_speed s fsolve) = u_star s fsolve ∧
     fan_pressure s (tail_speed s fsolve) = p_star s fsolve) := by
  have hgp1 : s.gamma + 1 ≠ 0 := ne_of_gt (by linarith)
  have hgm1 : s.gamma - 1 ≠ 0 := ne_of_gt (by linarith)
  have hg0 : (0:ℝ) < s.gamma := by linarith
  have hgne : s.gamma ≠ 0 := ne_of_gt hg0
  have hrLne : s.rho_L ≠ 0 := ne_of_gt hrL
  have hpLne : s.p_L ≠ 0 := ne_of_gt hpL
  have hcL : 0 < sound_speed s s.p_L s.rho_L := by
    rw [sound_speed]
    exact Real.sqrt_pos.mpr (div_pos (mul_pos hg0 hpL) hrL)
  have hcLne : sound_speed s s.p_L s.rho_L ≠ 0 := ne_of_gt hcL
  have hfanhead : c_fan s (head_speed s) = sound_speed s s.p_L s.rho_L := by
    rw [c_fan, head_speed]
    field_simp
    ring
  have hd1 : fan_density s (head_speed s) = s.rho_L := by
    rw [fan_density, hfanhead, div_self hcLne, Real.one_rpow, mul_one]
  have hv1 : fan_velocity s (head_speed s) = s.u_L := by
    rw [fan_velocity, head_speed]
    field_simp
    ring
  have hp1 : fan_pressure s (head_speed s) = s.p_L := by
    rw [fan_pressure, hfanhead, div_self hcLne, Real.one_rpow, mul_one]
  have hr : 0 < p_star s fsolve / s.p_L := div_pos hps hpL
  have hueq : u_star s fsolve = s.u_L -
      (2 * sound_speed s s.p_L s.rho_L / (s.gamma - 1)) *
        ((p_star s fsolve / s.p_L) ^ ((s.gamma - 1) / (2 * s.gamma)) - 1) := by
    rw [u_star, f_left, if_neg (not_lt.mpr hple)]
  have hrho3eq : rho_3 s fsolve = s.rho_L * (p_star s fsolve / s.p_L) ^ (1 / s.gamma) := by
    rw [rho_3, if_neg (not_lt.mpr hple)]
  have hc3 : sound_speed s (p_star s fsolve) (rho_3 s fsolve) =
      sound_speed s s.p_L s.rho_L *
        (p_star s fsolve / s.p_L) ^ ((s.gamma - 1) / (2 * s.gamma)) := by
    rw [hrho3eq, sound_speed, sound_speed]
    have hpow : (p_star s fsolve / s.p_L) ^ ((s.gamma - 1) / s.gamma) =
        (p_star s fsolve / s.p_L) / (p_star s fsolve / s.p_L) ^ (1 / s.gamma) := by
      rw [show (s.gamma - 1) / s.gamma = 1 - 1 / s.gamma by field_simp,
        Real.rpow_sub hr, Real.rpow_one]
    have hx : s.gamma * p_star s fsolve /
        (s.rho_L * (p_star s fsolve / s.p_L) ^ (1 / s.gamma)) =
        (s.gamma * s.p_L / s.rho_L) *
          (p_star s fsolve / s.p_L) ^ ((s.gamma - 1) / s.gamma) := by
      have hpowne : (p_star s fsolve / s.p_L) ^ (1 / s.gamma) ≠ 0 :=
        ne_of_gt (Real.rpow_pos_of_pos hr _)
      rw [hpow]
      field_simp
      ring
    rw [hx, Real.sqrt_mul (le_of_lt (div_pos (mul_pos hg0 hpL) hrL)) _]
    congr 1
    rw [Real.sqrt_eq_rpow, ← Real.rpow_mul (le_of_lt hr)]
    congr 1
    ring
  have hfantail : c_fan s (tail_speed s fsolve) =
      sound_speed s s.p_L s.rho_L *
        (p_star s fsolve / s.p_L) ^ ((s.gamma - 1) / (2 * s.gamma)) := by
    rw [c_fan, tail_speed, hueq, hc3]
    field_simp
    ring
  have hexp1 : (s.gamma - 1) / (2 * s.gamma) * (2 / (s.gamma - 1)) = 1 / s.gamma := by
    field_simp
    ring
  have hd2 : fan_density s (tail_speed s fsolve) = rho_3 s fsolve := by
    rw [fan_density, hfantail,
      mul_comm (sound_speed s s.p_L s.rho_L)
        ((p_star s fsolve / s.p_L) ^ ((s.gamma - 1) / (2 * s.gamma))),
      mul_div_assoc, div_self hcLne, mul_one, hrho3eq,
      ← Real.rpow_mul (le_of_lt hr), hexp1]
  have hv2 : fan_velocity s (tail_speed s fsolve) = u_star s fsolve := by
    rw [fan_velocity, tail_speed, hueq, hc3]
    field_simp
    ring
  have hp2 : fan_pressure s (tail_speed s fsolve) = p_star s fsolve := by
    rw [fan_pressure, hfantail,
      mul_comm (sound_speed s s.p_L s.rho_L)
        ((p_star s fsolve / s.p_L) ^ ((s.gamma - 1) / (2 * s.gamma))),
      mul_div_assoc, div_self hcLne, mul_one,
      ← Real.rpow_mul (le_of_lt hr),
      show (s.gamma - 1) / (2 * s.gamma) * (2 * s.gamma / (s.gamma - 1)) = 1 by
        field_simp,
      Real.rpow_one]
    field_simp
  exact ⟨⟨hd1, hv1, hp1⟩, hd2, hv2, hp2⟩

/-- A concrete instantiation of the fan-boundary theorem on the default Sod
state with the stub root finder returning 1/4: all hypotheses hold and the
fan density at the head speed equals the left density. -/
theorem fan_boundary_continuity_witness :
    (1 < sodDefault.gamma ∧ 0 < sodDefault.rho_L ∧ 0 < sodDefault.p_L ∧
      0 < p_star sodDefault (fsolve_const (1/4)) ∧
      p_star sodDefault (fsolve_const (1/4)) ≤ sodDefault.p_L) ∧
    fan_density sodDefault (head_speed sodDefault) = sodDefault.rho_L := by
  have h1 : (1:ℝ) < sodDefault.gamma := by norm_num [sodDefault]
  have h2 : (0:ℝ) < sodDefault.rho_L := by norm_num [sodDefault]
  have h3 : (0:ℝ) < sodDefault.p_L := by norm_num [sodDefault]
  have h4 : (0:ℝ) < p_star sodDefault (fsolve_const (1/4)) := by
    show (0:ℝ) < 1/4
    norm_num
  have h5 : p_star sodDefault (fsolve_const (1/4)) ≤ sodDefault.p_L := by
    show (1:ℝ)/4 ≤ sodDefault.p_L
    norm_num [sodDefault]
  exact ⟨⟨h1, h2, h3, h4, h5⟩,
    (fan_boundary_continuity sodDefault (fsolve_const (1/4)) h1 h2 h3 h4 h5).1.1⟩

end ShockTubeAnimationUtils

/-- The seventh power of 13/8 differs from 32, so 13/8 is not the real number
2 to the power 5/7. -/
lemma thirteen_eighths_ne_two_rpow : ((13:ℝ)/8) ≠ (2:ℝ) ^ ((5:ℝ)/7) := by
  intro h
  have h7 : ((13:ℝ)/8) ^ (7:ℕ) = ((2:ℝ) ^ ((5:ℝ)/7)) ^ (7:ℕ) := by rw [h]
  have h2 : ((2:ℝ) ^ ((5:ℝ)/7)) ^ (7:ℕ) = 32 := by
    rw [← Real.rpow_natCast ((2:ℝ) ^ ((5:ℝ)/7)) 7,
      ← Real.rpow_mul (by norm_num : (0:ℝ) ≤ 2)]
    rw [show ((5:ℝ)/7) * ((7:ℕ):ℝ) = ((5:ℕ):ℝ) by push_cast; ring,
      Real.rpow_natCast]
    norm_num
  rw [h2] at h7
  norm_num at h7

/-- Claim C9 counterexample: on the converging-flow state, whose Riemann
equation F has the exact root 2 (so the constant stub returning 2 is an exact
root finder there), the star pressure 2 exceeds p_L = 1 and the two
duplicated solver copies disagree: the utils copy computes the left star
density by the shock formula (13/8) while the 2d copy always applies the
isentropic formula (2 to the power 5/7). -/
theorem duplicate_solvers_differ_cex :
    ShockTubeAnimationUtils.equations sodConverging 2 = 0 ∧
    sodConverging.p_L < ShockTubeAnimationUtils.p_star sodConverging (fsolve_const 2) ∧
    (ShockTubeAnimationUtils.solve_riemann sodConverging (fsolve_const 2)).2.2.1 ≠
      (Animate2d.solve_riemann sodConverging (fsolve_const 2)).2.2.1 := by
  refine ⟨?_, ?_, ?_⟩
  · have harg : (2 / ((7:ℝ)/5 + 1) / 1) / (2 + ((7:ℝ)/5 - 1) / ((7:ℝ)/5 + 1) * 1) =
        5/13 := by norm_num
    simp only [ShockTubeAnimationUtils.equations, ShockTubeAnimationUtils.f_left,
      ShockTubeAnimationUtils.f_right, ShockTubeAnimationUtils.sound_speed,
      sodConverging]
    rw [harg]
    rw [if_pos (show (2:ℝ) > 1 by norm_num)]
    ring
  · show (1:ℝ) < 2
    norm_num
  · have hutils :
        (ShockTubeAnimationUtils.solve_riemann sodConverging (fsolve_const 2)).2.2.1 =
          13/8 := by
      show ShockTubeAnimationUtils.rho_3 sodConverging (fsolve_const 2) = 13/8
      have hps : ShockTubeAnimationUtils.p_star sodConverging (fsolve_const 2) = 2 := rfl
      rw [ShockTubeAnimationUtils.rho_3, hps]
      norm_num [sodConverging]
    have h2d :
        (Animate2d.solve_riemann sodConverging (fsolve_const 2)).2.2.1 =
          (2:ℝ) ^ ((5:ℝ)/7) := by
      show Animate2d.rho_3 sodConverging (fsolve_const 2) = _
      have hps : Animate2d.p_star sodConverging (fsolve_const 2) = 2 := rfl
      rw [Animate2d.rho_3, hps]
      simp only [sodConverging]
      rw [show (2:ℝ)/1 = 2 by norm_num, show (1:ℝ)/(7/5) = 5/7 by norm_num, one_mul]
    rw [hutils, h2d]
    exact thirteen_eighths_ne_two_rpow

/-- Claim C9 amended.  The two duplicated solver copies compute the same
star state whenever the solved pressure does not exceed p_L (the left
rarefaction configuration, which includes the canonical Sod setup): for every
state and every root finder, if the utils star pressure is at most p_L then
the two copies return equal tuples (p*, u*, rho_3, rho_4).  When p* exceeds
p_L they differ, since the 2d copy hardcodes the rarefaction and isentropic
formulas. -/
theorem duplicate_solvers_agree (s : SodState) (fsolve : (ℝ → ℝ) → ℝ → ℝ)
    (h : ShockTubeAnimationUtils.p_star s fsolve ≤ s.p_L) :
    ShockTubeAnimationUtils.solve_riemann s fsolve = Animate2d.solve_riemann s fsolve := by
  have hF : ShockTubeAnimationUtils.equations s = Animate2d.equations s := by
    funext p
    simp only [ShockTubeAnimationUtils.equations, Animate2d.equations,
      ShockTubeAnimationUtils.f_left, Animate2d.f_left,
      ShockTubeAnimationUtils.f_right, Animate2d.f_right,
      ShockTubeAnimationUtils.sound_speed, Animate2d.sound_speed]
    ring
  have hseed : (s.p_L + s.p_R) / 2 = 0.5 * (s.p_L + s.p_R) := by
    rw [show (0.5:ℝ) = 1/2 by norm_num]
    ring
  have hp : ShockTubeAnimationUtils.p_star s fsolve = Animate2d.p_star s fsolve := by
    rw [ShockTubeAnimationUtils.p_star, Animate2d.p_star, hF, hseed]
  have hu : ShockTubeAnimationUtils.u_star s fsolve = Animate2d.u_star s fsolve := by
    rw [ShockTubeAnimationUtils.u_star, Animate2d.u_star,
      ShockTubeAnimationUtils.f_left, if_neg (not_lt.mpr h), hp]
    simp only [ShockTubeAnimationUtils.sound_speed, Animate2d.sound_speed]
  have hr3 : ShockTubeAnimationUtils.rho_3 s fsolve = Animate2d.rho_3 s fsolve := by
    rw [ShockTubeAnimationUtils.rho_3, if_neg (not_lt.mpr h), Animate2d.rho_3, hp]
  have hr4 : ShockTubeAnimationUtils.rho_4 s fsolve = Animate2d.rho_4 s fsolve := by
    rw [ShockTubeAnimationUtils.rho_4, Animate2d.rho_4, hp]
    ring
  rw [ShockTubeAnimationUtils.solve_riemann, Animate2d.solve_riemann, hp, hu, hr3, hr4]

/-- A concrete instantiation of the agreement theorem on the default Sod
state with the stub root finder returning 1/2, which is at most p_L = 1. -/
theorem duplicate_solvers_agree_witness :
    ShockTubeAnimationUtils.p_star sodDefault (fsolve_const (1/2)) ≤ sodDefault.p_L ∧
    ShockTubeAnimationUtils.solve_riemann sodDefault (fsolve_const (1/2)) =
      Animate2d.solve_riemann sodDefault (fsolve_const (1/2)) := by
  have h : ShockTubeAnimationUtils.p_star sodDefault (fsolve_const (1/2)) ≤
      sodDefault.p_L := by
    show (1:ℝ)/2 ≤ sodDefault.p_L
    norm_num [sodDefault]
  exact ⟨h, duplicate_solvers_agree sodDefault (fsolve_const (1/2)) h⟩

end SodRiemann
